import Mathlib

/-!
Shallow embedding of the reliability core of the DataDog platform
(`src/datadog_platform/core/reliability.py`): the `CircuitBreaker` state
machine and the `RetryPolicy` exponential-backoff executor, together with
theorems settling the specification claims about them.

Modelling conventions:
* Python wall-clock floats (`time.time()`) are modelled as rationals; the
  current time is passed explicitly to every operation that reads the clock.
* Exceptions are modelled as values of `PyError` (a tagged error kind plus a
  payload distinguishing error instances); `raise` becomes an explicit
  outcome constructor.
* The wrapped operation handed to `CircuitBreaker.call` is modelled by the
  outcome it would produce if invoked (`Except PyError Nat`); the outcome
  constructor `circuitOpenError` corresponds to `CircuitBreakerOpenError`
  being raised before the operation is invoked.
* The operation handed to `RetryPolicy.execute` is a function from the
  0-indexed attempt number to the outcome of that invocation.
-/

namespace Reliability

/-- Python exception classes that appear in the reliability module's
context, as a tagged error-kind enum (design note 9 of the spec). -/
inductive ExcKind where
  | exception
  | valueError
  | typeError
  | runtimeError
  | circuitBreakerOpenError
  deriving DecidableEq, Repr

/-- `a.isSubclassOf b` mirrors Python `issubclass(a, b)` on the modelled
exception classes: every modelled class derives from `Exception`. -/
def ExcKind.isSubclassOf : ExcKind → ExcKind → Bool
  | _, .exception => true
  | .valueError, .valueError => true
  | .typeError, .typeError => true
  | .runtimeError, .runtimeError => true
  | .circuitBreakerOpenError, .circuitBreakerOpenError => true
  | _, _ => false

/-- A Python exception instance: its class plus a payload distinguishing
distinct instances of the same class. -/
structure PyError where
  kind : ExcKind
  payload : Nat
  deriving DecidableEq, Repr

/-- `CircuitState` from `reliability.py` (`OPEN` is spelled `opened`
because `open` is a Lean keyword). -/
inductive CircuitState where
  | closed
  | opened
  | halfOpen
  deriving DecidableEq, Repr

/-- The mutable state of a `CircuitBreaker` instance: configuration
parameters, transient counters, and cumulative metrics, exactly the fields
assigned in `CircuitBreaker.__init__` (the string `name` and the
timestamps inside `state_changes` are dropped; the log keeps the sequence
of states entered, which is what the transition claims are about). -/
structure CircuitBreaker where
  failure_threshold : Nat
  timeout_seconds : ℚ
  half_open_max_calls : Nat
  success_threshold : Nat
  state : CircuitState
  failure_count : Nat
  success_count : Nat
  last_failure_time : Option ℚ
  half_open_calls : Nat
  total_calls : Nat
  total_failures : Nat
  total_successes : Nat
  state_changes : List CircuitState
  deriving DecidableEq, Repr

/-- `CircuitBreaker.__init__`. -/
def CircuitBreaker.init (failure_threshold : Nat) (timeout_seconds : ℚ)
    (half_open_max_calls success_threshold : Nat) : CircuitBreaker where
  failure_threshold := failure_threshold
  timeout_seconds := timeout_seconds
  half_open_max_calls := half_open_max_calls
  success_threshold := success_threshold
  state := .closed
  failure_count := 0
  success_count := 0
  last_failure_time := none
  half_open_calls := 0
  total_calls := 0
  total_failures := 0
  total_successes := 0
  state_changes := []

/-- `CircuitBreaker._transition_to`: records the transition and performs the
per-state entry actions (`OPEN` re-arms `last_failure_time`; `HALF_OPEN`
resets `half_open_calls` and `success_count`). -/
def CircuitBreaker.transition_to (cb : CircuitBreaker) (now : ℚ)
    (new_state : CircuitState) : CircuitBreaker :=
  if cb.state ≠ new_state then
    let cb1 := { cb with state := new_state,
                         state_changes := cb.state_changes ++ [new_state] }
    match new_state with
    | .opened => { cb1 with last_failure_time := some now }
    | .halfOpen => { cb1 with half_open_calls := 0, success_count := 0 }
    | .closed => cb1
  else cb

/-- `CircuitBreaker._should_attempt_reset`. -/
def CircuitBreaker.should_attempt_reset (cb : CircuitBreaker) (now : ℚ) : Bool :=
  match cb.last_failure_time with
  | none => false
  | some t => decide ((now - t) ≥ cb.timeout_seconds)

/-- `CircuitBreaker._on_success`. -/
def CircuitBreaker.on_success (cb : CircuitBreaker) (now : ℚ) : CircuitBreaker :=
  let cb1 := { cb with total_successes := cb.total_successes + 1,
                       failure_count := 0 }
  if cb1.state = .halfOpen then
    let cb2 := { cb1 with success_count := cb1.success_count + 1 }
    if cb2.success_count ≥ cb2.success_threshold then
      cb2.transition_to now .closed
    else cb2
  else cb1

/-- `CircuitBreaker._on_failure`. -/
def CircuitBreaker.on_failure (cb : CircuitBreaker) (now : ℚ) : CircuitBreaker :=
  let cb1 := { cb with total_failures := cb.total_failures + 1,
                       failure_count := cb.failure_count + 1 }
  if cb1.state = .halfOpen then
    cb1.transition_to now .opened
  else if cb1.failure_count ≥ cb1.failure_threshold then
    cb1.transition_to now .opened
  else cb1

/-- Outcome of one `CircuitBreaker.call`: the operation's result returned,
the operation's error re-raised, or `CircuitBreakerOpenError` raised before
the operation was invoked. -/
inductive CallOutcome where
  | result (v : Nat)
  | opError (e : PyError)
  | circuitOpenError
  deriving DecidableEq, Repr

/-- `CircuitBreaker.call`: increments `total_calls`, routes according to the
state (OPEN timeout check, HALF_OPEN admission check), then invokes the
operation and applies `_on_success` / `_on_failure`.  `op` is the outcome
the wrapped operation would produce if invoked. -/
def CircuitBreaker.call (cb : CircuitBreaker) (now : ℚ)
    (op : Except PyError Nat) : CircuitBreaker × CallOutcome :=
  let cb1 := { cb with total_calls := cb.total_calls + 1 }
  if cb1.state = .opened ∧ ¬ cb1.should_attempt_reset now then
    (cb1, .circuitOpenError)
  else
    let cb2 := if cb1.state = .opened then cb1.transition_to now .halfOpen else cb1
    if cb2.state = .halfOpen ∧ cb2.half_open_calls ≥ cb2.half_open_max_calls then
      (cb2.transition_to now .opened, .circuitOpenError)
    else
      let cb3 := if cb2.state = .halfOpen then
          { cb2 with half_open_calls := cb2.half_open_calls + 1 }
        else cb2
      match op with
      | .ok v => (cb3.on_success now, .result v)
      | .error e => (cb3.on_failure now, .opError e)

/-- `CircuitBreaker.reset`. -/
def CircuitBreaker.reset (cb : CircuitBreaker) : CircuitBreaker :=
  { cb with state := .closed
            failure_count := 0
            success_count := 0
            last_failure_time := none
            half_open_calls := 0 }

/-- `n` consecutive calls whose operation fails with `e`, all at time `now`. -/
def CircuitBreaker.failN (cb : CircuitBreaker) (now : ℚ) (e : PyError) :
    Nat → CircuitBreaker
  | 0 => cb
  | n + 1 => ((cb.call now (.error e)).1).failN now e n

/-- `n` consecutive calls whose operation succeeds with `v`, all at time `now`. -/
def CircuitBreaker.succN (cb : CircuitBreaker) (now : ℚ) (v : Nat) :
    Nat → CircuitBreaker
  | 0 => cb
  | n + 1 => ((cb.call now (.ok v)).1).succN now v n

/-- Run a sequence of calls, each given by its time and the operation's
outcome for that invocation. -/
def CircuitBreaker.callSeq (cb : CircuitBreaker) :
    List (ℚ × Except PyError Nat) → CircuitBreaker
  | [] => cb
  | (t, op) :: rest => ((cb.call t op).1).callSeq rest

/-- The four state-machine edges the specification allows. -/
def allowedEdge : CircuitState → CircuitState → Bool
  | .closed, .opened => true
  | .opened, .halfOpen => true
  | .halfOpen, .opened => true
  | .halfOpen, .closed => true
  | _, _ => false

/-- `chainFrom s l`: starting at state `s`, the successive states in `l` are
each reached by an allowed edge. -/
def chainFrom (s : CircuitState) : List CircuitState → Bool
  | [] => true
  | t :: rest => allowedEdge s t && chainFrom t rest

/-- The state reached after following the transitions in `l` from `s`
(`s` itself when `l` is empty). -/
def lastState (s : CircuitState) : List CircuitState → CircuitState
  | [] => s
  | t :: rest => lastState t rest

/-- `RetryConfig` fields, as stored after `__init__`. -/
structure RetryConfig where
  max_attempts : Nat
  initial_delay : ℚ
  max_delay : ℚ
  exponential_base : ℚ
  jitter : Bool
  retryable_exceptions : List ExcKind
  deriving DecidableEq, Repr

/-- `RetryConfig.__init__`: plain field assignment, no validation; the
argument default `retryable_exceptions=None` and the falsiness of the empty
tuple make `self.retryable_exceptions = retryable_exceptions or (Exception,)`
store `(Exception,)` when the argument is `None` or empty. -/
def RetryConfig.init (max_attempts : Nat) (initial_delay max_delay exponential_base : ℚ)
    (jitter : Bool) (retryable_exceptions : Option (List ExcKind)) : RetryConfig where
  max_attempts := max_attempts
  initial_delay := initial_delay
  max_delay := max_delay
  exponential_base := exponential_base
  jitter := jitter
  retryable_exceptions :=
    match retryable_exceptions with
    | none => [ExcKind.exception]
    | some [] => [ExcKind.exception]
    | some l => l

/-- Whether an exception of class `k` is caught by
`except self.config.retryable_exceptions`: Python catches when `k` is a
subclass of one of the listed classes. -/
def RetryConfig.catches (c : RetryConfig) (k : ExcKind) : Bool :=
  c.retryable_exceptions.any (fun t => k.isSubclassOf t)

/-- `RetryPolicy` holds just its configuration. -/
structure RetryPolicy where
  config : RetryConfig
  deriving DecidableEq, Repr

/-- `RetryPolicy._calculate_delay`: exponential backoff, capped at
`max_delay`, then (if jitter is enabled) multiplied by the random factor —
`jitterFactor` models the draw of `random.uniform(0.5, 1.5)`. -/
def RetryPolicy.calculate_delay (p : RetryPolicy) (attempt : Nat)
    (jitterFactor : ℚ) : ℚ :=
  let delay := p.config.initial_delay * p.config.exponential_base ^ attempt
  let delay1 := min delay p.config.max_delay
  if p.config.jitter then delay1 * jitterFactor else delay1

/-- Result of `RetryPolicy.execute`: the operation's value returned, the
operation's error propagated (either immediately when non-retryable or as
the last attempt's error), or the synthetic
`RuntimeError("Retry execution failed without exception")` raised when the
attempt loop ran zero times. -/
inductive ExecResult where
  | ok (v : Nat)
  | err (e : PyError)
  | runtimeError
  deriving DecidableEq, Repr

/-- The attempt loop of `RetryPolicy.execute`: `attempt` is the index of
the next attempt (= invocations so far), `fuel` the number of attempts
remaining, `last` the caught exception of the latest retryable failure.
Returns the outcome together with the total number of invocations of the
operation. -/
def RetryPolicy.executeFrom (p : RetryPolicy) (op : Nat → Except PyError Nat) :
    Nat → Nat → Option PyError → ExecResult × Nat
  | attempt, 0, last =>
    (match last with
     | some e => .err e
     | none => .runtimeError, attempt)
  | attempt, fuel + 1, _last =>
    match op attempt with
    | .ok v => (.ok v, attempt + 1)
    | .error e =>
      if p.config.catches e.kind then
        p.executeFrom op (attempt + 1) fuel (some e)
      else
        (.err e, attempt + 1)

/-- `RetryPolicy.execute`: run the attempt loop from attempt 0, with
`max_attempts` attempts available and no exception caught yet.  `last` is
unused by `executeFrom` when `attempt < max_attempts` forces at least one
iteration; when the loop runs zero times the Python code raises
`RuntimeError`. -/
def RetryPolicy.execute (p : RetryPolicy) (op : Nat → Except PyError Nat) :
    ExecResult × Nat :=
  p.executeFrom op 0 p.config.max_attempts none

/-! ### Theorems settling the specification claims -/

/-- Claim C2: while OPEN and before `timeout_duration` has elapsed since
`last_failure_time`, every `call` raises `CircuitBreakerOpenError`, the
wrapped operation is never invoked (the result does not depend on `op` at
all), the state stays OPEN, and `total_calls` is still incremented. -/
theorem C2_open_rejects (cb : CircuitBreaker) (now t0 : ℚ) (op : Except PyError Nat)
    (hs : cb.state = .opened) (hl : cb.last_failure_time = some t0)
    (ht : now - t0 < cb.timeout_seconds) :
    cb.call now op = ({ cb with total_calls := cb.total_calls + 1 }, .circuitOpenError)
    ∧ (cb.call now op).1.state = .opened
    ∧ (cb.call now op).1.total_calls = cb.total_calls + 1
    ∧ (cb.call now op).2 = .circuitOpenError := by
  have hsar : cb.should_attempt_reset now = false := by
    simp [CircuitBreaker.should_attempt_reset, hl, not_le, ht]
  have h1 : cb.call now op
      = ({ cb with total_calls := cb.total_calls + 1 }, .circuitOpenError) := by
    simp [CircuitBreaker.call, hs, CircuitBreaker.should_attempt_reset, hl, not_le, ht]
  exact ⟨h1, by rw [h1]; exact hs, by rw [h1], by rw [h1]⟩

/-- A concrete breaker sitting in OPEN with `last_failure_time = 0` and
`timeout_seconds = 10`, used to instantiate the OPEN-state claims. -/
def openBreaker : CircuitBreaker :=
  { CircuitBreaker.init 2 10 3 2 with state := .opened, last_failure_time := some 0 }

/-- Claim C2 witness at a concrete OPEN breaker, 5s into a 10s timeout. -/
theorem C2_open_rejects_witness :
    (openBreaker.call 5 (.ok 7)).1.state = .opened
    ∧ (openBreaker.call 5 (.ok 7)).1.total_calls = openBreaker.total_calls + 1
    ∧ (openBreaker.call 5 (.ok 7)).2 = .circuitOpenError := by
  have h := C2_open_rejects openBreaker 5 0 (.ok 7) rfl rfl
    (by norm_num [openBreaker, CircuitBreaker.init])
  exact ⟨h.2.1, h.2.2.1, h.2.2.2⟩

/-- Claim C3: a breaker in OPEN whose timeout has elapsed lets the next call
through: it transitions to HALF_OPEN (resetting `half_open_calls` and
`success_count` to 0, then admitting this call as the first half-open call)
and invokes the operation; if that invocation fails the breaker transitions
straight back to OPEN on that single failure, with `last_failure_time = now`. -/
theorem C3_open_probe (cb : CircuitBreaker) (now t0 : ℚ) (e : PyError) (v : Nat)
    (hs : cb.state = .opened) (hl : cb.last_failure_time = some t0)
    (ht : cb.timeout_seconds ≤ now - t0) (hm : 1 ≤ cb.half_open_max_calls) :
    (cb.call now (.ok v)).2 = .result v
    ∧ (cb.call now (.error e)).2 = .opError e
    ∧ (cb.call now (.error e)).1.state = .opened
    ∧ (cb.call now (.error e)).1.last_failure_time = some now
    ∧ (cb.call now (.error e)).1.state_changes
        = cb.state_changes ++ [.halfOpen, .opened]
    ∧ (cb.call now (.error e)).1.success_count = 0
    ∧ (cb.call now (.error e)).1.half_open_calls = 1
    ∧ (cb.call now (.error e)).1.failure_count = cb.failure_count + 1 := by
  have hm0 : ¬ (cb.half_open_max_calls ≤ 0) := by omega
  refine ⟨?_, ?_, ?_, ?_, ?_, ?_, ?_, ?_⟩ <;>
    simp [CircuitBreaker.call, CircuitBreaker.should_attempt_reset, hs, hl, ht,
      CircuitBreaker.transition_to, CircuitBreaker.on_failure, CircuitBreaker.on_success,
      hm0]

/-- Claim C3 witness at a concrete timed-out OPEN breaker. -/
theorem C3_open_probe_witness :
    (openBreaker.call 10 (.error ⟨.valueError, 4⟩)).1.state = .opened
    ∧ (openBreaker.call 10 (.error ⟨.valueError, 4⟩)).1.last_failure_time = some 10
    ∧ (openBreaker.call 10 (.error ⟨.valueError, 4⟩)).1.state_changes
        = [CircuitState.halfOpen, CircuitState.opened] := by
  have h := C3_open_probe openBreaker 10 0 ⟨.valueError, 4⟩ 7 rfl rfl
    (by norm_num [openBreaker, CircuitBreaker.init])
    (by norm_num [openBreaker, CircuitBreaker.init])
  exact ⟨h.2.2.1, h.2.2.2.1, h.2.2.2.2.1⟩

/-- One failing call in CLOSED below the threshold: the breaker stays
CLOSED and `failure_count` advances by one. -/
theorem call_closed_fail_stays (cb : CircuitBreaker) (now : ℚ) (e : PyError)
    (hs : cb.state = .closed) (hlt : cb.failure_count + 1 < cb.failure_threshold) :
    (cb.call now (.error e)).1.state = .closed
    ∧ (cb.call now (.error e)).1.failure_count = cb.failure_count + 1
    ∧ (cb.call now (.error e)).1.failure_threshold = cb.failure_threshold := by
  have hnge : ¬ (cb.failure_threshold ≤ cb.failure_count + 1) := by omega
  refine ⟨?_, ?_, ?_⟩ <;>
    simp [CircuitBreaker.call, CircuitBreaker.on_failure, hs, hnge]

/-- One failing call in CLOSED that reaches the threshold: the breaker
opens. -/
theorem call_closed_fail_opens (cb : CircuitBreaker) (now : ℚ) (e : PyError)
    (hs : cb.state = .closed) (hge : cb.failure_threshold ≤ cb.failure_count + 1) :
    (cb.call now (.error e)).1.state = .opened := by
  simp [CircuitBreaker.call, CircuitBreaker.on_failure, CircuitBreaker.transition_to,
    hs, hge]

/-- `n` failing calls in CLOSED, all strictly below the threshold: the
breaker stays CLOSED and `failure_count` advances by `n`. -/
theorem failN_closed (now : ℚ) (e : PyError) :
    ∀ (n : Nat) (cb : CircuitBreaker), cb.state = .closed →
      cb.failure_count + n < cb.failure_threshold →
      (cb.failN now e n).state = .closed
      ∧ (cb.failN now e n).failure_count = cb.failure_count + n
      ∧ (cb.failN now e n).failure_threshold = cb.failure_threshold := by
  intro n
  induction n with
  | zero => intro cb hs _; exact ⟨hs, rfl, rfl⟩
  | succ m ih =>
    intro cb hs hlt
    have hstep := call_closed_fail_stays cb now e hs (by omega)
    have := ih ((cb.call now (.error e)).1) hstep.1 (by omega)
    rw [CircuitBreaker.failN]
    refine ⟨this.1, ?_, ?_⟩
    · rw [this.2.1, hstep.2.1]; omega
    · rw [this.2.2, hstep.2.2]

/-- Splitting a run of failing calls. -/
theorem failN_add (now : ℚ) (e : PyError) :
    ∀ (m n : Nat) (cb : CircuitBreaker),
      cb.failN now e (m + n) = (cb.failN now e m).failN now e n := by
  intro m
  induction m with
  | zero => intro n cb; rw [Nat.zero_add]; rfl
  | succ k ih =>
    intro n cb
    have : k + 1 + n = (k + n) + 1 := by omega
    rw [this, CircuitBreaker.failN, CircuitBreaker.failN, ih]

/-- Claim C1: with `failure_threshold = k ≥ 1`, a breaker starting CLOSED
with `failure_count = 0` stays CLOSED through the first `k - 1` consecutive
failing calls (with `failure_count` counting them) and transitions to OPEN
exactly on the `k`-th; any successful call in between resets
`failure_count` to 0 while staying CLOSED, so the consecutive count starts
over. -/
theorem C1_failure_threshold (cb : CircuitBreaker) (now : ℚ) (e : PyError) (v : Nat)
    (k : Nat) (hk : 1 ≤ k) (hthr : cb.failure_threshold = k)
    (hs : cb.state = .closed) (hf : cb.failure_count = 0) :
    (∀ j, j < k →
      (cb.failN now e j).state = .closed ∧ (cb.failN now e j).failure_count = j)
    ∧ (cb.failN now e k).state = .opened
    ∧ (∀ j, j < k →
      ((cb.failN now e j).call now (.ok v)).1.failure_count = 0
      ∧ ((cb.failN now e j).call now (.ok v)).1.state = .closed) := by
  have hpre : ∀ j, j < k →
      (cb.failN now e j).state = .closed
      ∧ (cb.failN now e j).failure_count = j
      ∧ (cb.failN now e j).failure_threshold = k := by
    intro j hj
    have := failN_closed now e j cb hs (by omega)
    exact ⟨this.1, by rw [this.2.1, hf]; omega, by rw [this.2.2, hthr]⟩
  refine ⟨fun j hj => ⟨(hpre j hj).1, (hpre j hj).2.1⟩, ?_, ?_⟩
  · have hk1 : k = (k - 1) + 1 := by omega
    rw [hk1, failN_add]
    have hprev := hpre (k - 1) (by omega)
    have : ((cb.failN now e (k - 1)).failN now e 1)
        = (((cb.failN now e (k - 1)).call now (.error e)).1) := rfl
    rw [this]
    exact call_closed_fail_opens _ now e hprev.1 (by omega)
  · intro j hj
    have hprev := hpre j hj
    constructor <;>
      simp [CircuitBreaker.call, CircuitBreaker.on_success, hprev.1]

/-- Claim C1 witness: threshold 3 starting from a fresh breaker — CLOSED
after 2 failures, OPEN on the 3rd, and a success after 2 failures resets
the count. -/
theorem C1_failure_threshold_witness :
    ((CircuitBreaker.init 3 10 3 2).failN 0 ⟨.valueError, 1⟩ 2).state = .closed
    ∧ ((CircuitBreaker.init 3 10 3 2).failN 0 ⟨.valueError, 1⟩ 3).state = .opened
    ∧ (((CircuitBreaker.init 3 10 3 2).failN 0 ⟨.valueError, 1⟩ 2).call 0
        (.ok 9)).1.failure_count = 0 := by
  have h := C1_failure_threshold (CircuitBreaker.init 3 10 3 2) 0 ⟨.valueError, 1⟩ 9 3
    (by norm_num) rfl rfl rfl
  exact ⟨(h.1 2 (by norm_num)).1, h.2.1, (h.2.2 2 (by norm_num)).1⟩

/-- One successful call in HALF_OPEN below the success threshold: the
breaker stays HALF_OPEN, `success_count` and `half_open_calls` advance by
one, and `failure_count` resets to 0. -/
theorem call_halfOpen_succ_stays (cb : CircuitBreaker) (now : ℚ) (v : Nat)
    (hs : cb.state = .halfOpen) (hh : cb.half_open_calls < cb.half_open_max_calls)
    (hsc : cb.success_count + 1 < cb.success_threshold) :
    (cb.call now (.ok v)).1.state = .halfOpen
    ∧ (cb.call now (.ok v)).1.success_count = cb.success_count + 1
    ∧ (cb.call now (.ok v)).1.half_open_calls = cb.half_open_calls + 1
    ∧ (cb.call now (.ok v)).1.success_threshold = cb.success_threshold
    ∧ (cb.call now (.ok v)).1.half_open_max_calls = cb.half_open_max_calls
    ∧ (cb.call now (.ok v)).1.failure_count = 0 := by
  have h1 : ¬ (cb.half_open_max_calls ≤ cb.half_open_calls) := by omega
  have h2 : ¬ (cb.success_threshold ≤ cb.success_count + 1) := by omega
  refine ⟨?_, ?_, ?_, ?_, ?_, ?_⟩ <;>
    simp [CircuitBreaker.call, CircuitBreaker.on_success, hs, h1, h2]

/-- One successful call in HALF_OPEN that reaches the success threshold:
the breaker closes, with `failure_count = 0` but `success_count`
incremented, not reset (the transition to CLOSED performs no counter
reset). -/
theorem call_halfOpen_succ_closes (cb : CircuitBreaker) (now : ℚ) (v : Nat)
    (hs : cb.state = .halfOpen) (hh : cb.half_open_calls < cb.half_open_max_calls)
    (hsc : cb.success_threshold ≤ cb.success_count + 1) :
    (cb.call now (.ok v)).1.state = .closed
    ∧ (cb.call now (.ok v)).1.failure_count = 0
    ∧ (cb.call now (.ok v)).1.success_count = cb.success_count + 1 := by
  have h1 : ¬ (cb.half_open_max_calls ≤ cb.half_open_calls) := by omega
  refine ⟨?_, ?_, ?_⟩ <;>
    simp [CircuitBreaker.call, CircuitBreaker.on_success, CircuitBreaker.transition_to,
      hs, h1, hsc]

/-- `n` successful calls in HALF_OPEN, all strictly below the success
threshold and within the half-open admission budget. -/
theorem succN_halfOpen (now : ℚ) (v : Nat) :
    ∀ (n : Nat) (cb : CircuitBreaker), cb.state = .halfOpen →
      cb.success_count + n < cb.success_threshold →
      cb.half_open_calls + n ≤ cb.half_open_max_calls →
      (cb.succN now v n).state = .halfOpen
      ∧ (cb.succN now v n).success_count = cb.success_count + n
      ∧ (cb.succN now v n).half_open_calls = cb.half_open_calls + n
      ∧ (cb.succN now v n).success_threshold = cb.success_threshold
      ∧ (cb.succN now v n).half_open_max_calls = cb.half_open_max_calls := by
  intro n
  induction n with
  | zero => intro cb hs _ _; exact ⟨hs, rfl, rfl, rfl, rfl⟩
  | succ m ih =>
    intro cb hs hsc hh
    have hstep := call_halfOpen_succ_stays cb now v hs (by omega) (by omega)
    have := ih ((cb.call now (.ok v)).1) hstep.1
      (by rw [hstep.2.1, hstep.2.2.2.1]; omega)
      (by rw [hstep.2.2.1, hstep.2.2.2.2.1]; omega)
    rw [CircuitBreaker.succN]
    refine ⟨this.1, ?_, ?_, ?_, ?_⟩
    · rw [this.2.1, hstep.2.1]; omega
    · rw [this.2.2.1, hstep.2.2.1]; omega
    · rw [this.2.2.2.1, hstep.2.2.2.1]
    · rw [this.2.2.2.2, hstep.2.2.2.2.1]

/-- Splitting a run of successful calls. -/
theorem succN_add (now : ℚ) (v : Nat) :
    ∀ (m n : Nat) (cb : CircuitBreaker),
      cb.succN now v (m + n) = (cb.succN now v m).succN now v n := by
  intro m
  induction m with
  | zero => intro n cb; rw [Nat.zero_add]; rfl
  | succ k ih =>
    intro n cb
    have : k + 1 + n = (k + n) + 1 := by omega
    rw [this, CircuitBreaker.succN, CircuitBreaker.succN, ih]

/-- Claim C4 counterexample: a breaker with `success_threshold = 1` driven
CLOSED→OPEN→HALF_OPEN→CLOSED ends with `state = CLOSED` and
`failure_count = 0`, but `success_count = 1 ≠ 0` — the claim's
"success_count equals 0 immediately after the transition to CLOSED" is
false, because `_transition_to` only resets `success_count` when entering
HALF_OPEN, not when entering CLOSED. -/
theorem C4_counterexample :
    (({ CircuitBreaker.init 1 10 3 1 with state := .halfOpen }
        : CircuitBreaker).call 0 (.ok 5)).1.state = .closed
    ∧ (({ CircuitBreaker.init 1 10 3 1 with state := .halfOpen }
        : CircuitBreaker).call 0 (.ok 5)).1.success_threshold = 1
    ∧ ¬ ((({ CircuitBreaker.init 1 10 3 1 with state := .halfOpen }
        : CircuitBreaker).call 0 (.ok 5)).1.success_count = 0) := by
  refine ⟨?_, ?_, ?_⟩ <;> decide

/-- Claim C4 (amended): a breaker freshly entered into HALF_OPEN
(`success_count = half_open_calls = 0`) with `1 ≤ success_threshold ≤
half_open_max_calls` transitions to CLOSED after `success_threshold`
consecutive successful calls, and immediately afterwards
`failure_count = 0`; `success_count`, however, equals `success_threshold`
rather than 0 — it is reset only on the next transition into HALF_OPEN. -/
theorem C4_amended_success_threshold_closes (cb : CircuitBreaker) (now : ℚ) (v : Nat)
    (hs : cb.state = .halfOpen) (hsc0 : cb.success_count = 0)
    (hh0 : cb.half_open_calls = 0) (h1 : 1 ≤ cb.success_threshold)
    (h2 : cb.success_threshold ≤ cb.half_open_max_calls) :
    (cb.succN now v cb.success_threshold).state = .closed
    ∧ (cb.succN now v cb.success_threshold).failure_count = 0
    ∧ (cb.succN now v cb.success_threshold).success_count = cb.success_threshold := by
  have hk : cb.success_threshold = (cb.success_threshold - 1) + 1 := by omega
  have hpre := succN_halfOpen now v (cb.success_threshold - 1) cb hs
    (by omega) (by omega)
  have hlast := call_halfOpen_succ_closes ((cb.succN now v (cb.success_threshold - 1)))
    now v hpre.1 (by omega) (by omega)
  have hsplit : cb.succN now v cb.success_threshold
      = ((cb.succN now v (cb.success_threshold - 1)).call now (.ok v)).1 := by
    rw [hk, succN_add]; rfl
  rw [hsplit]
  exact ⟨hlast.1, hlast.2.1, by rw [hlast.2.2, hpre.2.1]; omega⟩

/-- Claim C4 witness: fresh HALF_OPEN breaker with `success_threshold = 2`,
`half_open_max_calls = 3` — two successes close it with `failure_count = 0`
and `success_count = 2`. -/
theorem C4_amended_witness :
    (({ CircuitBreaker.init 3 10 3 2 with state := .halfOpen }
        : CircuitBreaker).succN 0 5 2).state = .closed
    ∧ (({ CircuitBreaker.init 3 10 3 2 with state := .halfOpen }
        : CircuitBreaker).succN 0 5 2).failure_count = 0
    ∧ (({ CircuitBreaker.init 3 10 3 2 with state := .halfOpen }
        : CircuitBreaker).succN 0 5 2).success_count = 2 := by
  exact C4_amended_success_threshold_closes
    { CircuitBreaker.init 3 10 3 2 with state := .halfOpen } 0 5
    rfl rfl rfl (by norm_num [CircuitBreaker.init]) (by norm_num [CircuitBreaker.init])

/-- Claim C6: the backoff delay for 0-indexed attempt `n` is
`min (initial_delay * exponential_base ^ n) max_delay` when jitter is
disabled; with jitter enabled it is that capped value times the random
factor (applied after the cap, so it can exceed `max_delay`); concretely,
`initial_delay=0.1, exponential_base=2.0, jitter=False` gives delays
0.1, 0.2, 0.4 for attempts 0, 1, 2. -/
theorem C6_backoff_formula (p : RetryPolicy) (n : Nat) (jf : ℚ) :
    (p.config.jitter = false →
      p.calculate_delay n jf
        = min (p.config.initial_delay * p.config.exponential_base ^ n) p.config.max_delay)
    ∧ (p.config.jitter = true →
      p.calculate_delay n jf
        = min (p.config.initial_delay * p.config.exponential_base ^ n) p.config.max_delay
            * jf)
    ∧ (RetryPolicy.mk (RetryConfig.init 3 0.1 60 2 false none)).calculate_delay 0 jf = 0.1
    ∧ (RetryPolicy.mk (RetryConfig.init 3 0.1 60 2 false none)).calculate_delay 1 jf = 0.2
    ∧ (RetryPolicy.mk (RetryConfig.init 3 0.1 60 2 false none)).calculate_delay 2 jf = 0.4
    ∧ ((1 : ℚ) / 2 ≤ 3 / 2 ∧ (3 : ℚ) / 2 ≤ 3 / 2
        ∧ (RetryPolicy.mk (RetryConfig.init 3 100 1 2 true none)).calculate_delay 0 (3 / 2)
            > (RetryConfig.init 3 100 1 2 true none).max_delay) := by
  refine ⟨?_, ?_, ?_, ?_, ?_, ?_⟩
  · intro h; simp [RetryPolicy.calculate_delay, h]
  · intro h; simp [RetryPolicy.calculate_delay, h]
  · simp [RetryPolicy.calculate_delay, RetryConfig.init]; norm_num
  · simp [RetryPolicy.calculate_delay, RetryConfig.init]; norm_num
  · simp [RetryPolicy.calculate_delay, RetryConfig.init]; norm_num
  · refine ⟨by norm_num, by norm_num, ?_⟩
    simp [RetryPolicy.calculate_delay, RetryConfig.init]; norm_num

/-- Claim C6 witness: the jitter-off and jitter-on formulas evaluated at
concrete configurations. -/
theorem C6_backoff_formula_witness :
    (RetryPolicy.mk (RetryConfig.init 3 0.1 60 2 false none)).calculate_delay 2 1
      = min ((0.1 : ℚ) * 2 ^ 2) 60
    ∧ (RetryPolicy.mk (RetryConfig.init 3 100 1 2 true none)).calculate_delay 0 (3 / 2)
      = min ((100 : ℚ) * 2 ^ 0) 1 * (3 / 2) := by
  constructor
  · exact (C6_backoff_formula (RetryPolicy.mk (RetryConfig.init 3 0.1 60 2 false none))
      2 1).1 rfl
  · exact ((C6_backoff_formula (RetryPolicy.mk (RetryConfig.init 3 100 1 2 true none))
      0 (3 / 2)).2.1) rfl

/-- Attempt loop, success case: if the first `i` invocations (counting from
`attempt`) raise retryable errors and invocation `i` succeeds, the loop
returns that value after exactly `i + 1` further invocations. -/
theorem executeFrom_success (p : RetryPolicy) (op : Nat → Except PyError Nat) (v : Nat) :
    ∀ (i fuel attempt : Nat) (last : Option PyError), i < fuel →
      (∀ j, j < i → ∃ e, op (attempt + j) = .error e ∧ p.config.catches e.kind = true) →
      op (attempt + i) = .ok v →
      p.executeFrom op attempt fuel last = (.ok v, attempt + i + 1) := by
  intro i
  induction i with
  | zero =>
    intro fuel attempt last hfuel _ hok
    obtain ⟨f, rfl⟩ : ∃ f, fuel = f + 1 := ⟨fuel - 1, by omega⟩
    rw [Nat.add_zero] at hok
    simp [RetryPolicy.executeFrom, hok]
  | succ m ih =>
    intro fuel attempt last hfuel herrs hok
    obtain ⟨f, rfl⟩ : ∃ f, fuel = f + 1 := ⟨fuel - 1, by omega⟩
    obtain ⟨e0, he0, hc0⟩ := herrs 0 (by omega)
    rw [Nat.add_zero] at he0
    have step : p.executeFrom op attempt (f + 1) last
        = p.executeFrom op (attempt + 1) f (some e0) := by
      simp [RetryPolicy.executeFrom, he0, hc0]
    rw [step]
    have := ih f (attempt + 1) (some e0) (by omega)
      (fun j hj => by
        obtain ⟨e, he, hc⟩ := herrs (j + 1) (by omega)
        exact ⟨e, by rw [show attempt + 1 + j = attempt + (j + 1) by omega]; exact he, hc⟩)
      (by rw [show attempt + 1 + m = attempt + (m + 1) by omega]; exact hok)
    rw [this]
    congr 1
    omega

/-- Attempt loop, exhaustion case: if every remaining invocation raises a
retryable error, the loop propagates exactly the last invocation's error
after consuming all the fuel. -/
theorem executeFrom_exhausted (p : RetryPolicy) (op : Nat → Except PyError Nat) :
    ∀ (fuel attempt : Nat) (last : Option PyError) (e : PyError), 1 ≤ fuel →
      (∀ j, j < fuel → ∃ e', op (attempt + j) = .error e' ∧ p.config.catches e'.kind = true) →
      op (attempt + fuel - 1) = .error e →
      p.executeFrom op attempt fuel last = (.err e, attempt + fuel) := by
  intro fuel
  induction fuel with
  | zero => intro attempt last e h; omega
  | succ f ih =>
    intro attempt last e _ herrs hlast
    obtain ⟨e0, he0, hc0⟩ := herrs 0 (by omega)
    rw [Nat.add_zero] at he0
    rcases Nat.eq_zero_or_pos f with hf | hf
    · subst hf
      rw [show attempt + 1 - 1 = attempt + 0 by omega, Nat.add_zero] at hlast
      rw [hlast] at he0
      obtain rfl : e = e0 := by injection he0
      simp [RetryPolicy.executeFrom, hlast, hc0]
    · have step : p.executeFrom op attempt (f + 1) last
          = p.executeFrom op (attempt + 1) f (some e0) := by
        simp [RetryPolicy.executeFrom, he0, hc0]
      rw [step]
      have := ih (attempt + 1) (some e0) e hf
        (fun j hj => by
          obtain ⟨e', he', hc'⟩ := herrs (j + 1) (by omega)
          exact ⟨e', by rw [show attempt + 1 + j = attempt + (j + 1) by omega]; exact he', hc'⟩)
        (by rw [show attempt + 1 + f - 1 = attempt + (f + 1) - 1 by omega]; exact hlast)
      rw [this]
      congr 1
      omega

/-- Attempt loop, non-retryable case: a non-retryable error at invocation
`i` (after `i` retryable failures) is propagated at once, with no further
invocations. -/
theorem executeFrom_nonretryable (p : RetryPolicy) (op : Nat → Except PyError Nat)
    (e : PyError) :
    ∀ (i fuel attempt : Nat) (last : Option PyError), i < fuel →
      (∀ j, j < i → ∃ e', op (attempt + j) = .error e' ∧ p.config.catches e'.kind = true) →
      op (attempt + i) = .error e → p.config.catches e.kind = false →
      p.executeFrom op attempt fuel last = (.err e, attempt + i + 1) := by
  intro i
  induction i with
  | zero =>
    intro fuel attempt last hfuel _ he hnc
    obtain ⟨f, rfl⟩ : ∃ f, fuel = f + 1 := ⟨fuel - 1, by omega⟩
    rw [Nat.add_zero] at he
    simp [RetryPolicy.executeFrom, he, hnc]
  | succ m ih =>
    intro fuel attempt last hfuel herrs he hnc
    obtain ⟨f, rfl⟩ : ∃ f, fuel = f + 1 := ⟨fuel - 1, by omega⟩
    obtain ⟨e0, he0, hc0⟩ := herrs 0 (by omega)
    rw [Nat.add_zero] at he0
    have step : p.executeFrom op attempt (f + 1) last
        = p.executeFrom op (attempt + 1) f (some e0) := by
      simp [RetryPolicy.executeFrom, he0, hc0]
    rw [step]
    have := ih f (attempt + 1) (some e0) (by omega)
      (fun j hj => by
        obtain ⟨e', he', hc'⟩ := herrs (j + 1) (by omega)
        exact ⟨e', by rw [show attempt + 1 + j = attempt + (j + 1) by omega]; exact he', hc'⟩)
      (by rw [show attempt + 1 + m = attempt + (m + 1) by omega]; exact he) hnc
    rw [this]
    congr 1
    omega

/-- Claim C7: `RetryPolicy.execute` propagates the operation's error
unchanged — a non-retryable error raised on the first invocation is
propagated after exactly 1 invocation even when attempts remain (and in
general a non-retryable error ends the loop at once); when every attempt
raises a retryable error the last attempt's error is propagated after
exactly `max_attempts` invocations, with no synthetic wrapper; success at
any attempt returns that result immediately. -/
theorem C7_execute_propagation (p : RetryPolicy) (op : Nat → Except PyError Nat) :
    (∀ e : PyError, 1 ≤ p.config.max_attempts → op 0 = .error e →
      p.config.catches e.kind = false → p.execute op = (.err e, 1))
    ∧ (∀ (i : Nat) (e : PyError), i < p.config.max_attempts →
      (∀ j, j < i → ∃ e', op j = .error e' ∧ p.config.catches e'.kind = true) →
      op i = .error e → p.config.catches e.kind = false →
      p.execute op = (.err e, i + 1))
    ∧ (∀ e : PyError, 1 ≤ p.config.max_attempts →
      (∀ j, j < p.config.max_attempts →
        ∃ e', op j = .error e' ∧ p.config.catches e'.kind = true) →
      op (p.config.max_attempts - 1) = .error e →
      p.execute op = (.err e, p.config.max_attempts))
    ∧ (∀ (i v : Nat), i < p.config.max_attempts →
      (∀ j, j < i → ∃ e', op j = .error e' ∧ p.config.catches e'.kind = true) →
      op i = .ok v → p.execute op = (.ok v, i + 1)) := by
  refine ⟨?_, ?_, ?_, ?_⟩
  · intro e h1 he hnc
    exact executeFrom_nonretryable p op e 0 p.config.max_attempts 0 none (by omega)
      (by omega) he hnc
  · intro i e hi herrs he hnc
    have := executeFrom_nonretryable p op e i p.config.max_attempts 0 none hi
      (fun j hj => by simpa using herrs j hj) (by simpa using he) hnc
    simpa [RetryPolicy.execute] using this
  · intro e h1 herrs he
    have := executeFrom_exhausted p op p.config.max_attempts 0 none e h1
      (fun j hj => by simpa using herrs j hj) (by simpa using he)
    simpa [RetryPolicy.execute] using this
  · intro i v hi herrs hok
    have := executeFrom_success p op v i p.config.max_attempts 0 none hi
      (fun j hj => by simpa using herrs j hj) (by simpa using hok)
    simpa [RetryPolicy.execute] using this

/-- Claim C7 witness: `max_attempts = 3` with a retryable error class.
An operation raising a non-retryable `typeError` first is propagated after
1 invocation; an operation always raising retryable `valueError`s
propagates the 3rd attempt's error after 3 invocations; an operation
failing twice then succeeding returns the value after 3 invocations. -/
theorem C7_execute_propagation_witness :
    (RetryPolicy.mk (RetryConfig.init 3 1 60 2 false (some [.valueError]))).execute
        (fun _ => .error ⟨.typeError, 9⟩) = (.err ⟨.typeError, 9⟩, 1)
    ∧ (RetryPolicy.mk (RetryConfig.init 3 1 60 2 false (some [.valueError]))).execute
        (fun i => .error ⟨.valueError, i⟩) = (.err ⟨.valueError, 2⟩, 3)
    ∧ (RetryPolicy.mk (RetryConfig.init 3 1 60 2 false (some [.valueError]))).execute
        (fun i => if i < 2 then .error ⟨.valueError, i⟩ else .ok 42) = (.ok 42, 3) := by
  refine ⟨?_, ?_, ?_⟩
  · exact (C7_execute_propagation
        (RetryPolicy.mk (RetryConfig.init 3 1 60 2 false (some [.valueError])))
        (fun _ => .error ⟨.typeError, 9⟩)).1
      ⟨.typeError, 9⟩ (by decide) rfl (by decide)
  · exact (C7_execute_propagation
        (RetryPolicy.mk (RetryConfig.init 3 1 60 2 false (some [.valueError])))
        (fun i => .error ⟨.valueError, i⟩)).2.2.1
      ⟨.valueError, 2⟩ (by decide)
      (fun j _ => ⟨⟨.valueError, j⟩, rfl, rfl⟩) rfl
  · exact (C7_execute_propagation
        (RetryPolicy.mk (RetryConfig.init 3 1 60 2 false (some [.valueError])))
        (fun i => if i < 2 then .error ⟨.valueError, i⟩ else .ok 42)).2.2.2
      2 42 (by decide)
      (fun j hj => ⟨⟨.valueError, j⟩, by simp [show j < 2 from hj], rfl⟩)
      (by norm_num)

/-- Claim C8 (code bug): `RetryConfig.__init__` performs no validation, so
construction with `max_attempts = 0` (< 1) succeeds; the misconfiguration
only surfaces at call time, where `execute` runs zero attempts, never
invokes the operation, and raises
`RuntimeError("Retry execution failed without exception")`.  Likewise
`CircuitBreaker.__init__` accepts degenerate parameters without error. -/
theorem C8_no_construction_validation :
    (RetryConfig.init 0 1 60 2 true none).max_attempts = 0
    ∧ (RetryPolicy.mk (RetryConfig.init 0 1 60 2 true none)).execute (fun _ => .ok 3)
        = (.runtimeError, 0)
    ∧ (CircuitBreaker.init 0 0 0 0).failure_threshold = 0
    ∧ (CircuitBreaker.init 0 0 0 0).state = .closed := by
  refine ⟨rfl, ?_, rfl, rfl⟩
  rfl

/-- Claim C9 counterexample: after one successful call, `reset()` leaves the
cumulative counters nonzero — `total_calls` and `total_successes` are
counters the breaker keeps, and they are not zeroed. -/
theorem C9_counterexample :
    ((((CircuitBreaker.init 1 0 3 1).call 0 (.ok 5)).1).reset).total_calls = 1
    ∧ ((((CircuitBreaker.init 1 0 3 1).call 0 (.ok 5)).1).reset).total_successes = 1 := by
  exact ⟨rfl, rfl⟩

/-- Claim C9 (amended): `reset()` on any breaker, whatever its state and
history, forces CLOSED and zeroes the transient counters `failure_count`,
`success_count`, `half_open_calls` and clears `last_failure_time`; the
cumulative metrics `total_calls`, `total_failures`, `total_successes` and
the transition log are preserved, not zeroed. -/
theorem C9_reset (cb : CircuitBreaker) :
    cb.reset.state = .closed
    ∧ cb.reset.failure_count = 0
    ∧ cb.reset.success_count = 0
    ∧ cb.reset.half_open_calls = 0
    ∧ cb.reset.last_failure_time = none
    ∧ cb.reset.total_calls = cb.total_calls
    ∧ cb.reset.total_failures = cb.total_failures
    ∧ cb.reset.total_successes = cb.total_successes
    ∧ cb.reset.state_changes = cb.state_changes := by
  exact ⟨rfl, rfl, rfl, rfl, rfl, rfl, rfl, rfl, rfl⟩

/-- Claim C10: passing `retryable_exceptions = None` or the empty tuple
stores the single-element tuple `(Exception,)`, so every modelled
`Exception`-derived error class is caught as retryable. -/
theorem C10_default_retryable (a : Nat) (b c d : ℚ) (j : Bool) :
    (RetryConfig.init a b c d j none).retryable_exceptions = [ExcKind.exception]
    ∧ (RetryConfig.init a b c d j (some [])).retryable_exceptions = [ExcKind.exception]
    ∧ (∀ k : ExcKind, (RetryConfig.init a b c d j none).catches k = true)
    ∧ (∀ k : ExcKind, (RetryConfig.init a b c d j (some [])).catches k = true) := by
  refine ⟨rfl, rfl, ?_, ?_⟩ <;>
    · intro k
      cases k <;> rfl

/-- `chainFrom` splits over list append. -/
theorem chainFrom_append (l1 : List CircuitState) :
    ∀ (s : CircuitState) (l2 : List CircuitState),
      chainFrom s (l1 ++ l2) = (chainFrom s l1 && chainFrom (lastState s l1) l2) := by
  induction l1 with
  | nil => intro s l2; simp [chainFrom, lastState]
  | cons t rest ih =>
    intro s l2
    simp [chainFrom, lastState, ih, Bool.and_assoc]

/-- `lastState` splits over list append. -/
theorem lastState_append (l1 : List CircuitState) :
    ∀ (s : CircuitState) (l2 : List CircuitState),
      lastState s (l1 ++ l2) = lastState (lastState s l1) l2 := by
  induction l1 with
  | nil => intro s l2; simp [lastState]
  | cons t rest ih => intro s l2; simp [lastState, ih]

/-- Every single `call` appends to the transition log a chain of
specification-allowed edges starting at the current state, and ends in the
last state of that chain. -/
theorem call_chain (cb : CircuitBreaker) (now : ℚ) (op : Except PyError Nat) :
    ∃ l, (cb.call now op).1.state_changes = cb.state_changes ++ l
      ∧ chainFrom cb.state l = true
      ∧ (cb.call now op).1.state = lastState cb.state l := by
  rcases hstate : cb.state with _ | _ | _
  · -- CLOSED: proceed; success keeps CLOSED, failure either stays or opens
    rcases op with e | v
    · by_cases hth : cb.failure_threshold ≤ cb.failure_count + 1
      · refine ⟨[.opened], ?_, ?_, ?_⟩ <;>
          simp [CircuitBreaker.call, CircuitBreaker.on_failure,
            CircuitBreaker.transition_to, hstate, hth, lastState, chainFrom, allowedEdge]
      · refine ⟨[], ?_, rfl, ?_⟩ <;>
          simp [CircuitBreaker.call, CircuitBreaker.on_failure, hstate, hth, lastState]
    · refine ⟨[], ?_, rfl, ?_⟩ <;>
        simp [CircuitBreaker.call, CircuitBreaker.on_success, hstate, lastState]
  · -- OPEN: either rejected before timeout, or probe via HALF_OPEN
    rcases hlft : cb.last_failure_time with _ | t
    · -- no recorded failure time: `_should_attempt_reset` is false, rejected
      refine ⟨[], ?_, rfl, ?_⟩ <;>
        simp [CircuitBreaker.call, CircuitBreaker.should_attempt_reset, hstate, hlft,
          lastState]
    · by_cases hts : cb.timeout_seconds ≤ now - t
      · by_cases hmax0 : cb.half_open_max_calls = 0
        · refine ⟨[.halfOpen, .opened], ?_, ?_, ?_⟩ <;>
            simp [CircuitBreaker.call, CircuitBreaker.should_attempt_reset,
              CircuitBreaker.transition_to, hstate, hlft, hts, hmax0, ge_iff_le,
              lastState, chainFrom, allowedEdge]
        · have hm : ¬ (cb.half_open_max_calls ≤ 0) := by omega
          rcases op with e | v
          · refine ⟨[.halfOpen, .opened], ?_, ?_, ?_⟩ <;>
              simp [CircuitBreaker.call, CircuitBreaker.should_attempt_reset,
                CircuitBreaker.on_failure, CircuitBreaker.transition_to, hstate, hlft,
                hts, hm, ge_iff_le, lastState, chainFrom, allowedEdge]
          · by_cases hsc : cb.success_threshold ≤ 1
            · refine ⟨[.halfOpen, .closed], ?_, ?_, ?_⟩ <;>
                simp [CircuitBreaker.call, CircuitBreaker.should_attempt_reset,
                  CircuitBreaker.on_success, CircuitBreaker.transition_to, hstate,
                  hlft, hts, hm, hsc, ge_iff_le, lastState, chainFrom, allowedEdge]
            · refine ⟨[.halfOpen], ?_, ?_, ?_⟩ <;>
                simp [CircuitBreaker.call, CircuitBreaker.should_attempt_reset,
                  CircuitBreaker.on_success, CircuitBreaker.transition_to, hstate,
                  hlft, hts, hm, hsc, ge_iff_le, lastState, chainFrom, allowedEdge]
      · refine ⟨[], ?_, rfl, ?_⟩ <;>
          simp [CircuitBreaker.call, CircuitBreaker.should_attempt_reset, hstate,
            hlft, hts, ge_iff_le, lastState]
  · -- HALF_OPEN: at the admission limit reject to OPEN; otherwise the
    -- outcome decides OPEN, CLOSED or staying HALF_OPEN
    by_cases hmax : cb.half_open_max_calls ≤ cb.half_open_calls
    · refine ⟨[.opened], ?_, ?_, ?_⟩ <;>
        simp [CircuitBreaker.call, CircuitBreaker.transition_to, hstate, hmax,
          lastState, chainFrom, allowedEdge]
    · rcases op with e | v
      · refine ⟨[.opened], ?_, ?_, ?_⟩ <;>
          simp [CircuitBreaker.call, CircuitBreaker.on_failure,
            CircuitBreaker.transition_to, hstate, hmax, lastState, chainFrom, allowedEdge]
      · by_cases hsc : cb.success_threshold ≤ cb.success_count + 1
        · refine ⟨[.closed], ?_, ?_, ?_⟩ <;>
            simp [CircuitBreaker.call, CircuitBreaker.on_success,
              CircuitBreaker.transition_to, hstate, hmax, hsc, lastState, chainFrom,
              allowedEdge]
        · refine ⟨[], ?_, rfl, ?_⟩ <;>
            simp [CircuitBreaker.call, CircuitBreaker.on_success, hstate, hmax, hsc,
              lastState]

/-- Over any sequence of calls, the transition log grows by a chain of
allowed edges only, and the final state is the chain's endpoint. -/
theorem callSeq_chain :
    ∀ (ops : List (ℚ × Except PyError Nat)) (cb : CircuitBreaker),
      ∃ l, (cb.callSeq ops).state_changes = cb.state_changes ++ l
        ∧ chainFrom cb.state l = true
        ∧ (cb.callSeq ops).state = lastState cb.state l := by
  intro ops
  induction ops with
  | nil => intro cb; exact ⟨[], by simp [CircuitBreaker.callSeq], rfl, rfl⟩
  | cons p rest ih =>
    intro cb
    obtain ⟨t, o⟩ := p
    obtain ⟨l1, h1, h2, h3⟩ := call_chain cb t o
    obtain ⟨l2, g1, g2, g3⟩ := ih ((cb.call t o).1)
    refine ⟨l1 ++ l2, ?_, ?_, ?_⟩
    · show ((cb.call t o).1.callSeq rest).state_changes = _
      rw [g1, h1, List.append_assoc]
    · rw [chainFrom_append, h2, Bool.true_and, ← h3, g2]
    · show ((cb.call t o).1.callSeq rest).state = _
      rw [g3, h3, lastState_append]

/-- A single `call` preserves the invariant
`half_open_calls ≤ half_open_max_calls` (and never changes the
configuration bound itself). -/
theorem call_half_open_bound (cb : CircuitBreaker) (now : ℚ)
    (op : Except PyError Nat) (h : cb.half_open_calls ≤ cb.half_open_max_calls) :
    (cb.call now op).1.half_open_calls ≤ (cb.call now op).1.half_open_max_calls
    ∧ (cb.call now op).1.half_open_max_calls = cb.half_open_max_calls := by
  rcases hstate : cb.state with _ | _ | _
  · rcases op with e | v
    · by_cases hth : cb.failure_threshold ≤ cb.failure_count + 1
      · constructor <;>
          simp [CircuitBreaker.call, CircuitBreaker.on_failure,
            CircuitBreaker.transition_to, hstate, hth] <;> omega
      · constructor <;>
          simp [CircuitBreaker.call, CircuitBreaker.on_failure, hstate, hth] <;> omega
    · constructor <;>
        simp [CircuitBreaker.call, CircuitBreaker.on_success, hstate] <;> omega
  · rcases hlft : cb.last_failure_time with _ | t
    · constructor <;>
        simp [CircuitBreaker.call, CircuitBreaker.should_attempt_reset, hstate,
          hlft] <;> omega
    · by_cases hts : cb.timeout_seconds ≤ now - t
      · by_cases hmax0 : cb.half_open_max_calls = 0
        · constructor <;>
            simp [CircuitBreaker.call, CircuitBreaker.should_attempt_reset,
              CircuitBreaker.transition_to, hstate, hlft, hts, hmax0, ge_iff_le] <;>
            omega
        · have hm : ¬ (cb.half_open_max_calls ≤ 0) := by omega
          rcases op with e | v
          · constructor <;>
              simp [CircuitBreaker.call, CircuitBreaker.should_attempt_reset,
                CircuitBreaker.on_failure, CircuitBreaker.transition_to, hstate,
                hlft, hts, hm, ge_iff_le] <;> omega
          · by_cases hsc : cb.success_threshold ≤ 1
            · constructor <;>
                simp [CircuitBreaker.call, CircuitBreaker.should_attempt_reset,
                  CircuitBreaker.on_success, CircuitBreaker.transition_to, hstate,
                  hlft, hts, hm, hsc, ge_iff_le] <;> omega
            · constructor <;>
                simp [CircuitBreaker.call, CircuitBreaker.should_attempt_reset,
                  CircuitBreaker.on_success, CircuitBreaker.transition_to, hstate,
                  hlft, hts, hm, hsc, ge_iff_le] <;> omega
      · constructor <;>
          simp [CircuitBreaker.call, CircuitBreaker.should_attempt_reset, hstate,
            hlft, hts, ge_iff_le] <;> omega
  · by_cases hmax : cb.half_open_max_calls ≤ cb.half_open_calls
    · constructor <;>
        simp [CircuitBreaker.call, CircuitBreaker.transition_to, hstate, hmax] <;> omega
    · rcases op with e | v
      · constructor <;>
          simp [CircuitBreaker.call, CircuitBreaker.on_failure,
            CircuitBreaker.transition_to, hstate, hmax] <;> omega
      · by_cases hsc : cb.success_threshold ≤ cb.success_count + 1
        · constructor <;>
            simp [CircuitBreaker.call, CircuitBreaker.on_success,
              CircuitBreaker.transition_to, hstate, hmax, hsc] <;> omega
        · constructor <;>
            simp [CircuitBreaker.call, CircuitBreaker.on_success, hstate, hmax,
              hsc] <;> omega

/-- The `half_open_calls ≤ half_open_max_calls` invariant is preserved
along any sequence of calls. -/
theorem callSeq_half_open_bound :
    ∀ (ops : List (ℚ × Except PyError Nat)) (cb : CircuitBreaker),
      cb.half_open_calls ≤ cb.half_open_max_calls →
      (cb.callSeq ops).half_open_calls ≤ (cb.callSeq ops).half_open_max_calls := by
  intro ops
  induction ops with
  | nil => intro cb h; exact h
  | cons p rest ih =>
    intro cb h
    obtain ⟨t, o⟩ := p
    exact ih ((cb.call t o).1) (call_half_open_bound cb t o h).1

/-- A call arriving in HALF_OPEN at the admission limit is rejected with
`CircuitBreakerOpenError`, forces OPEN (re-arming `last_failure_time`), and
never invokes the operation (the call's result is the same whatever the
operation would have done). -/
theorem call_halfOpen_limit_rejects (cb : CircuitBreaker) (now : ℚ)
    (op : Except PyError Nat) (hs : cb.state = .halfOpen)
    (hmax : cb.half_open_max_calls ≤ cb.half_open_calls) :
    (cb.call now op).2 = .circuitOpenError
    ∧ (cb.call now op).1.state = .opened
    ∧ (cb.call now op).1.last_failure_time = some now
    ∧ ∀ op' : Except PyError Nat, cb.call now op = cb.call now op' := by
  refine ⟨?_, ?_, ?_, fun op' => ?_⟩ <;>
    simp [CircuitBreaker.call, CircuitBreaker.transition_to, hs, hmax]

/-- Claim C5: over every sequence of calls (`reset` excluded) the state
changes recorded are exactly edges from
{CLOSED→OPEN, OPEN→HALF_OPEN, HALF_OPEN→OPEN, HALF_OPEN→CLOSED} (and the
current state always tracks the end of that edge chain); `half_open_calls`
never exceeds `half_open_max_calls` at any point along the sequence once it
starts within the bound; and a call arriving in HALF_OPEN with
`half_open_calls ≥ half_open_max_calls` is rejected with
`CircuitBreakerOpenError`, transitions to OPEN, and the operation is never
invoked. -/
theorem C5_invariants (cb : CircuitBreaker) (now : ℚ) (op : Except PyError Nat)
    (ops : List (ℚ × Except PyError Nat)) :
    (∃ l, (cb.callSeq ops).state_changes = cb.state_changes ++ l
      ∧ chainFrom cb.state l = true
      ∧ (cb.callSeq ops).state = lastState cb.state l)
    ∧ (cb.half_open_calls ≤ cb.half_open_max_calls →
      (cb.call now op).1.half_open_calls ≤ (cb.call now op).1.half_open_max_calls
      ∧ (cb.call now op).1.half_open_max_calls = cb.half_open_max_calls)
    ∧ (cb.half_open_calls ≤ cb.half_open_max_calls →
      (cb.callSeq ops).half_open_calls ≤ (cb.callSeq ops).half_open_max_calls)
    ∧ (cb.state = .halfOpen → cb.half_open_max_calls ≤ cb.half_open_calls →
      (cb.call now op).2 = .circuitOpenError
      ∧ (cb.call now op).1.state = .opened
      ∧ (cb.call now op).1.last_failure_time = some now
      ∧ ∀ op' : Except PyError Nat, cb.call now op = cb.call now op') := by
  exact ⟨callSeq_chain ops cb,
    fun h => call_half_open_bound cb now op h,
    fun h => callSeq_half_open_bound ops cb h,
    fun hs hmax => call_halfOpen_limit_rejects cb now op hs hmax⟩

/-- Claim C5 witness: a saturated HALF_OPEN breaker
(`half_open_calls = half_open_max_calls = 2`) — the invariant holds for a
singleton call sequence, and a further call is rejected to OPEN. -/
theorem C5_invariants_witness :
    (({ CircuitBreaker.init 2 10 2 2 with state := .halfOpen, half_open_calls := 2 }
        : CircuitBreaker).call 3 (.ok 1)).2 = .circuitOpenError
    ∧ (({ CircuitBreaker.init 2 10 2 2 with state := .halfOpen, half_open_calls := 2 }
        : CircuitBreaker).call 3 (.ok 1)).1.state = .opened
    ∧ (({ CircuitBreaker.init 2 10 2 2 with state := .halfOpen, half_open_calls := 2 }
        : CircuitBreaker).callSeq [(3, .ok 1)]).half_open_calls
        ≤ (({ CircuitBreaker.init 2 10 2 2 with state := .halfOpen, half_open_calls := 2 }
        : CircuitBreaker).callSeq [(3, .ok 1)]).half_open_max_calls := by
  have h := C5_invariants
    { CircuitBreaker.init 2 10 2 2 with state := .halfOpen, half_open_calls := 2 }
    3 (.ok 1) [(3, .ok 1)]
  have h4 := h.2.2.2 rfl (by norm_num [CircuitBreaker.init])
  exact ⟨h4.1, h4.2.1, h.2.2.1 (by norm_num [CircuitBreaker.init])⟩

end Reliability
